import Mathlib

/-!
Verification development for the 13rooms booking API.

The definitions below are a shallow embedding of the TypeScript controllers
in `src/controllers/bookings.controller.ts` and `src/controllers/rooms.controller.ts`
(the latter shipped here as `src/unnamed/part_011`, the version wired into the
routes), together with the in-memory rooms cache of
`src/services/cache.service.ts`.

Modelling conventions:

* Wall-clock timestamps.  The code stores timezone-naive `YYYY-MM-DD HH:mm:ss`
  strings and relies (per the specification) on their fixed-width, zero-padded
  lexical shape, so that lexical order coincides with chronological order.
  The helper module `src/utils/date-utils.ts` is imported by the controllers
  but is not part of the sources; following the specification we model a
  timestamp as a natural number of seconds, an order-isomorphic image of the
  string representation.  `dayOf` models SQL `DATE(...)`/`CURDATE()` and
  `hourOf` models JavaScript `Date.prototype.getHours` under this encoding.
* SQL result sets.  A table is a Lean list of rows; a `SELECT ... WHERE p`
  with no `ORDER BY` is `List.filter` in storage order, `rows[0]` is the list
  head, `UPDATE ... WHERE id = ?` maps over the rows with matching id and
  `DELETE ... WHERE id = ?` filters them out.
* JavaScript truthiness on request fields is modelled with `Option`
  (`none` = absent), and `a || b` on title-like string fields treats the
  empty string as falsy (`jsOrStr`).
-/

/-- Booking status column, `ENUM('confirmed','canceled')` in `init-db.sql`. -/
inductive BookingStatus where
  | confirmed
  | canceled
deriving DecidableEq, Repr

/-- A row of the `booking` table (the columns the booking engine reads). -/
structure Booking where
  id : Nat
  room_id : Nat
  /-- Stored column `name`; surfaced as `title` by the SELECT aliases. -/
  name : String
  start_time : Nat
  end_time : Nat
  comment : Option String
  created_by : Option Nat
  status : BookingStatus
deriving DecidableEq, Repr

/-- A row of the `room` table (the columns the booking engine reads).
`status` is kept as the raw stored string, as the controllers receive it. -/
structure Room where
  id : Nat
  name : String
  capacity : Nat
  status : String
deriving DecidableEq, Repr

/-- Displayed room status, `type RoomStatus` in the rooms controller. -/
inductive RoomStatus where
  | active
  | maintenance
  | inactive
  | night_rest
deriving DecidableEq, Repr

/-- JavaScript `String.prototype.toLowerCase`, character by character. -/
def jsToLower (s : String) : String := ⟨s.data.map Char.toLower⟩

/-- JavaScript `String.prototype.trim`: leading and trailing whitespace
removed. -/
def jsTrim (s : String) : String :=
  ⟨((s.data.dropWhile Char.isWhitespace).reverse.dropWhile
      Char.isWhitespace).reverse⟩

/-- `normalizeRoomStatus` from the rooms controller: lowercases the stored
string; `active`/`available` map to `active`, `inactive`/`occupied` to
`inactive`, `maintenance` to itself, and anything else defaults to `active`. -/
def normalizeRoomStatus (status : Option String) : RoomStatus :=
  match status.map jsToLower with
  | some "active" => .active
  | some "available" => .active
  | some "maintenance" => .maintenance
  | some "inactive" => .inactive
  | some "occupied" => .inactive
  | _ => .active

/-- Modelled from the spec: `DATE(t)` / the calendar day containing a
wall-clock timestamp, under the seconds encoding of the missing
`date-utils` module. -/
def dayOf (t : Nat) : Nat := t / 86400

/-- Modelled from the spec: the local hour of a wall-clock timestamp
(`Date.prototype.getHours`), under the seconds encoding. -/
def hourOf (t : Nat) : Nat := t % 86400 / 3600

/-- Modelled from the spec: `calculateSecondsBetweenNaive` from the missing
`src/utils/date-utils.ts` — the signed number of seconds from the first
wall-clock timestamp to the second. -/
def calculateSecondsBetweenNaive (startT endT : Nat) : Int :=
  (endT : Int) - (startT : Int)

/-- The half-open interval intersection rule of the spec:
`aStart < bEnd AND aEnd > bStart`.  This is the comparison pair
`start_time < ? AND end_time > ?` used by every conflict SELECT. -/
def overlaps (aStart aEnd bStart bEnd : Nat) : Bool :=
  decide (aStart < bEnd) && decide (aEnd > bStart)

/-- The WHERE clause of the conflict SELECTs in `createBooking`,
`checkBookingConflict` and `updateBooking`:
`room_id = ? [AND id != ?] AND start_time < reqEnd AND end_time > reqStart
AND status = 'confirmed'`. -/
def matchesConflict (roomId reqStart reqEnd : Nat) (excludeId : Option Nat)
    (b : Booking) : Bool :=
  b.room_id == roomId
    && (match excludeId with
        | some ex => b.id != ex
        | none => true)
    && overlaps b.start_time b.end_time reqStart reqEnd
    && decide (b.status = .confirmed)

/-- The conflict SELECT itself: the confirmed bookings of the room colliding
with the requested interval, in storage order (the query has no ORDER BY). -/
def conflictQuery (bookings : List Booking) (roomId reqStart reqEnd : Nat)
    (excludeId : Option Nat) : List Booking :=
  bookings.filter (matchesConflict roomId reqStart reqEnd excludeId)

/-- One character of `validator.escape`: HTML-escapes `& " ' < > / \ 96`. -/
def escapeChar (c : Char) : String :=
  if c = '&' then "&amp;"
  else if c = Char.ofNat 34 then "&quot;"
  else if c = Char.ofNat 39 then "&#x27;"
  else if c = '<' then "&lt;"
  else if c = '>' then "&gt;"
  else if c = '/' then "&#x2F;"
  else if c = Char.ofNat 92 then "&#x5C;"
  else if c = Char.ofNat 96 then "&#96;"
  else String.singleton c

/-- `validator.escape`: every special character replaced by its entity.
The library applies the eight replacements sequentially; since no
replacement output contains a later pattern this equals the per-character
translation. -/
def escapeHtml (s : String) : String :=
  s.data.foldl (fun acc c => acc ++ escapeChar c) ""

/-- `sanitizeInput` from the bookings controller: absent or blank input
becomes `null`, otherwise the trimmed input is HTML-escaped. -/
def sanitizeInput (input : Option String) : Option String :=
  match input with
  | none => none
  | some s =>
    let trimmed := jsTrim s
    if trimmed = "" then none else some (escapeHtml trimmed)

/-- `validateAndSanitizeTitle`: sanitized title must have length in [2, 200]. -/
def validateAndSanitizeTitle (title : Option String) : Except String String :=
  match sanitizeInput title with
  | none => .error "Der Titel muss mindestens 2 Zeichen lang sein."
  | some sanitized =>
    if sanitized.length < 2 then
      .error "Der Titel muss mindestens 2 Zeichen lang sein."
    else if sanitized.length > 200 then
      .error "Der Titel darf maximal 200 Zeichen lang sein."
    else
      .ok sanitized

/-- `validateAndSanitizeComment`: an absent comment is fine, a present one
must sanitize to at most 1000 characters. -/
def validateAndSanitizeComment (comment : Option String) :
    Except String (Option String) :=
  match sanitizeInput comment with
  | none => .ok none
  | some sanitized =>
    if sanitized.length > 1000 then
      .error "Der Kommentar darf maximal 1000 Zeichen lang sein."
    else
      .ok (some sanitized)

/-- JavaScript `a || b` on optional string fields: absent or empty is falsy. -/
def jsOrStr (a b : Option String) : Option String :=
  match a with
  | some s => if s = "" then b else some s
  | none => b

/-- The persistent state the booking engine touches: the `room` and `booking`
tables plus the AUTO_INCREMENT counter of the booking primary key. -/
structure DB where
  rooms : List Room
  nextBookingId : Nat
  bookings : List Booking
deriving DecidableEq, Repr

/-- Request body of `POST /api/bookings`, plus the authenticated user id
(absent for guests).  Time fields may arrive in the separate
`date`/`startTime`/`endTime` format or the combined
`start_time`/`end_time` format. -/
structure CreateReq where
  userId : Option Nat
  room_id : Option Nat
  title : Option String
  name : Option String
  guestName : Option String
  comment : Option String
  date : Option Nat
  startTime : Option Nat
  endTime : Option Nat
  start_time : Option Nat
  end_time : Option Nat
deriving Repr

/-- Combination of a date with a time of day, modelling the string
concatenation `q{date} q{startTime}:00` under the seconds encoding. -/
def combineDateTime (day timeOfDay : Nat) : Nat := day * 86400 + timeOfDay

/-- The format selection shared by `createBooking` and `updateBooking`: the
separate `date`/`startTime`/`endTime` fields win when all three are present,
otherwise the combined `start_time`/`end_time` pair is used when complete,
otherwise no time pair is available. -/
def selectTimes (date startT endT st et : Option Nat) : Option (Nat × Nat) :=
  match date, startT, endT with
  | some d, some s, some e => some (combineDateTime d s, combineDateTime d e)
  | _, _, _ =>
    match st, et with
    | some s, some e => some (s, e)
    | _, _ => none

/-- The raw title picked by `createBooking`: authenticated users use
`title || name`, guests use `guestName || title || name`. -/
def rawTitleOf (req : CreateReq) : Option String :=
  if req.userId.isSome then jsOrStr req.title req.name
  else jsOrStr req.guestName (jsOrStr req.title req.name)

/-- Responses of `createBooking`, keyed by HTTP outcome. -/
inductive CreateResp where
  /-- 400 with a human-readable reason. -/
  | validationError (msg : String)
  /-- 404, the room id resolves to no room. -/
  | roomNotFound
  /-- 400, the stored room status is inactive or maintenance. -/
  | roomUnavailable
  /-- 409 carrying the first colliding booking row. -/
  | conflict (b : Booking)
  /-- 201 with the inserted id. -/
  | created (id : Nat)
deriving DecidableEq, Repr

/-- The stored-status admission gate of `createBooking`: the raw status,
lowercased, is compared against exactly `inactive` and `maintenance`. -/
def roomGatePasses (status : String) : Bool :=
  !(jsToLower status == "inactive" || jsToLower status == "maintenance")

/-- `createBooking` (`POST /api/bookings`): title and comment validation,
time-format selection, room-id presence (JavaScript truthiness, so id 0 is
treated as missing), the `end > start` check, the stored-status gate, the
conflict SELECT, and finally the INSERT of a confirmed booking. -/
def createBooking (db : DB) (req : CreateReq) : DB × CreateResp :=
  match validateAndSanitizeTitle (rawTitleOf req) with
  | .error msg => (db, .validationError msg)
  | .ok bookingTitle =>
  match validateAndSanitizeComment req.comment with
  | .error msg => (db, .validationError msg)
  | .ok sanitizedComment =>
  match selectTimes req.date req.startTime req.endTime req.start_time req.end_time with
  | none => (db, .validationError "Please enter all required fields")
  | some (startT, endT) =>
  match req.room_id with
  | none => (db, .validationError "Room ID is required")
  | some roomId =>
  if roomId = 0 then (db, .validationError "Room ID is required")
  else if calculateSecondsBetweenNaive startT endT ≤ 0 then
    (db, .validationError "Die Endzeit muss nach der Startzeit liegen.")
  else
    match db.rooms.find? (fun r => r.id == roomId) with
    | none => (db, .roomNotFound)
    | some room =>
      if !roomGatePasses room.status then (db, .roomUnavailable)
      else
        match conflictQuery db.bookings roomId startT endT none with
        | c :: _ => (db, .conflict c)
        | [] =>
          let nb : Booking :=
            { id := db.nextBookingId
              room_id := roomId
              name := bookingTitle
              start_time := startT
              end_time := endT
              comment := sanitizedComment
              created_by := req.userId
              status := .confirmed }
          ({ db with
              bookings := db.bookings ++ [nb]
              nextBookingId := db.nextBookingId + 1 },
           .created db.nextBookingId)

/-- Request body of `PUT /api/bookings/:id`. -/
structure UpdateReq where
  title : Option String
  comment : Option String
  room_id : Option Nat
  date : Option Nat
  startTime : Option Nat
  endTime : Option Nat
  start_time : Option Nat
  end_time : Option Nat
deriving Repr

/-- Responses of `updateBooking`. -/
inductive UpdateResp where
  | validationError (msg : String)
  | notFound
  | forbidden
  /-- 409 carrying the first colliding booking row. -/
  | conflict (b : Booking)
  /-- 200, full reschedule applied. -/
  | rescheduled
  /-- 200, metadata-only update applied. -/
  | updated
deriving DecidableEq, Repr

/-- The reschedule UPDATE: room, name, times and comment of the rows with the
given id are replaced (status stays unchanged). -/
def applyReschedule (bid targetRoomId startT endT : Nat) (title : String)
    (comment : Option String) (b : Booking) : Booking :=
  if b.id = bid then
    { b with
        room_id := targetRoomId
        name := title
        start_time := startT
        end_time := endT
        comment := comment }
  else b

/-- The metadata-only UPDATE: only name and comment of the rows with the
given id are replaced. -/
def applyMetadataUpdate (bid : Nat) (title : String) (comment : Option String)
    (b : Booking) : Booking :=
  if b.id = bid then { b with name := title, comment := comment } else b

/-- `updateBooking` (`PUT /api/bookings/:id`): title and comment are always
validated; the booking row is loaded and ownership enforced
(owner-or-admin); if a complete time pair is supplied the request is a full
reschedule — `end > start` is checked, the conflict SELECT runs against the
target room (`room_id ?? booking.room_id`) excluding the booking itself, and
on a miss room/name/times/comment are updated; otherwise only name and
comment are updated, any partially supplied time or room field being
ignored. -/
def updateBooking (db : DB) (userId : Nat) (isAdmin : Bool) (bookingId : Nat)
    (req : UpdateReq) : DB × UpdateResp :=
  match validateAndSanitizeTitle req.title with
  | .error msg => (db, .validationError msg)
  | .ok sanitizedTitle =>
  match validateAndSanitizeComment req.comment with
  | .error msg => (db, .validationError msg)
  | .ok sanitizedComment =>
  match db.bookings.find? (fun b => b.id == bookingId) with
  | none => (db, .notFound)
  | some booking =>
    if !isAdmin && !(booking.created_by == some userId) then (db, .forbidden)
    else
      match selectTimes req.date req.startTime req.endTime req.start_time req.end_time with
      | some (startT, endT) =>
        if calculateSecondsBetweenNaive startT endT ≤ 0 then
          (db, .validationError "Die Endzeit muss nach der Startzeit liegen.")
        else
          let targetRoomId := req.room_id.getD booking.room_id
          match conflictQuery db.bookings targetRoomId startT endT (some bookingId) with
          | c :: _ => (db, .conflict c)
          | [] =>
            ({ db with
                bookings := db.bookings.map
                  (applyReschedule bookingId targetRoomId startT endT
                    sanitizedTitle sanitizedComment) },
             .rescheduled)
      | none =>
        ({ db with
            bookings := db.bookings.map
              (applyMetadataUpdate bookingId sanitizedTitle sanitizedComment) },
         .updated)

/-- Responses of `deleteBooking`. -/
inductive DeleteResp where
  | notFound
  | forbidden
  | deleted
deriving DecidableEq, Repr

/-- `deleteBooking` (`DELETE /api/bookings/:id`): load, enforce
owner-or-admin, then DELETE the row. -/
def deleteBooking (db : DB) (userId : Nat) (isAdmin : Bool) (bookingId : Nat) :
    DB × DeleteResp :=
  match db.bookings.find? (fun b => b.id == bookingId) with
  | none => (db, .notFound)
  | some booking =>
    if !isAdmin && !(booking.created_by == some userId) then (db, .forbidden)
    else
      ({ db with bookings := db.bookings.filter (fun b => b.id != bookingId) },
       .deleted)

/-- `checkBookingConflict` (`GET /api/bookings/check-conflict/:roomId`): the
colliding booking reported by the conflict probe — `rows[0]` of the conflict
SELECT, i.e. the head of the filtered list in storage order. -/
def checkBookingConflict (bookings : List Booking) (roomId reqStart reqEnd : Nat) :
    Option Booking :=
  (conflictQuery bookings roomId reqStart reqEnd none).head?

/-- A booking row as shaped for a response of `GET /api/bookings/room/:roomId`. -/
structure BookingView where
  id : Nat
  room_id : Nat
  title : String
  start_time : Nat
  end_time : Nat
  comment : Option String
  created_by : Option Nat
deriving DecidableEq, Repr

/-- Ascending sort by `start_time` (SQL `ORDER BY start_time ASC`, or the
JavaScript stable sort by start time). -/
def sortBookingsByStart (l : List Booking) : List Booking :=
  List.insertionSort (fun a b => a.start_time ≤ b.start_time) l

/-- `getBookingsByRoomId` (`GET /api/bookings/room/:roomId`): confirmed
bookings of the room, optionally restricted to one calendar day, sorted by
start; a guest (no identity context) gets every row with title `Belegt` and
null comment and creator, an authenticated user gets the stored fields. -/
def getBookingsByRoomId (bookings : List Booking) (roomId : Nat)
    (dateFilter : Option Nat) (isGuest : Bool) : List BookingView :=
  let rows := sortBookingsByStart (bookings.filter (fun b =>
    b.room_id == roomId
      && decide (b.status = .confirmed)
      && (match dateFilter with
          | some d => dayOf b.start_time == d
          | none => true)))
  if isGuest then
    rows.map (fun b =>
      { id := b.id, room_id := b.room_id, title := "Belegt"
        start_time := b.start_time, end_time := b.end_time
        comment := none, created_by := none })
  else
    rows.map (fun b =>
      { id := b.id, room_id := b.room_id, title := b.name
        start_time := b.start_time, end_time := b.end_time
        comment := b.comment, created_by := b.created_by })

/-- A booking as shaped inside the aggregated rooms response
(the rooms controller's local `Booking` interface). -/
structure RoomBookingView where
  id : Nat
  room_id : Nat
  title : String
  start_time : Nat
  end_time : Nat
  comment : Option String
deriving DecidableEq, Repr

/-- Ascending sort of room booking views by `start_time`. -/
def sortViewsByStart (l : List RoomBookingView) : List RoomBookingView :=
  List.insertionSort (fun a b => a.start_time ≤ b.start_time) l

/-- One element of the aggregated rooms response of `GET /api/rooms`. -/
structure RoomView where
  id : Nat
  name : String
  capacity : Nat
  status : RoomStatus
  currentBooking : Option RoomBookingView
  nextBooking : Option RoomBookingView
  totalBookingsToday : Nat
  totalBookedMinutesToday : Nat
  allBookingsToday : List RoomBookingView
deriving DecidableEq, Repr

/-- The cache-miss body of `getAllRooms`: loads the rooms (statuses
normalized), loads today's confirmed bookings ordered by start, redacts them
for guests (title `Belegt`, null comment), then per room computes the current
booking, the next booking, today's counts and minutes, the sorted booking
list, and applies the business-hours override (`night_rest` outside hours
[8, 20)). -/
def computeRoomsView (rooms : List Room) (bookings : List Booking) (now : Nat)
    (isGuest : Bool) : List RoomView :=
  let bookingRows := sortBookingsByStart (bookings.filter (fun b =>
    (dayOf b.start_time == dayOf now || dayOf b.end_time == dayOf now)
      && decide (b.status = .confirmed)))
  let allBookings : List RoomBookingView :=
    if isGuest then
      bookingRows.map (fun b =>
        { id := b.id, room_id := b.room_id, title := "Belegt"
          start_time := b.start_time, end_time := b.end_time, comment := none })
    else
      bookingRows.map (fun b =>
        { id := b.id, room_id := b.room_id, title := b.name
          start_time := b.start_time, end_time := b.end_time
          comment := b.comment })
  let currentHour := hourOf now
  let isOutsideBusinessHours := decide (currentHour < 8) || decide (currentHour ≥ 20)
  rooms.map (fun room =>
    let roomBookings := allBookings.filter (fun b => b.room_id == room.id)
    let currentBooking := roomBookings.find? (fun b =>
      decide (b.start_time ≤ now) && decide (now < b.end_time))
    let nextBooking :=
      (sortViewsByStart (roomBookings.filter (fun b =>
        decide (now < b.start_time)))).head?
    let totalBookedMinutesToday := roomBookings.foldl
      (fun total b => total + (b.end_time - b.start_time) / 60) 0
    let normalizedStatus := normalizeRoomStatus (some room.status)
    { id := room.id
      name := room.name
      capacity := room.capacity
      status := if isOutsideBusinessHours then .night_rest else normalizedStatus
      currentBooking := currentBooking
      nextBooking := nextBooking
      totalBookingsToday := roomBookings.length
      totalBookedMinutesToday := totalBookedMinutesToday
      allBookingsToday := sortViewsByStart roomBookings })

/-- The module-level rooms cache of `cache.service.ts`. -/
structure CacheState where
  data : Option (List RoomView)
  timestamp : Nat
deriving DecidableEq, Repr

/-- Cache lifetime, 45 seconds. -/
def CACHE_TTL_MS : Nat := 45000

/-- The empty cache (server start, or right after an invalidation). -/
def emptyCache : CacheState := { data := none, timestamp := 0 }

/-- `getAllRooms` (`GET /api/rooms`): if the cache holds data younger than
`CACHE_TTL_MS` it is returned as-is — before any look at the requesting
identity — otherwise the aggregation runs fresh (redacting for guests) and
refreshes the cache.  `nowMs` is `Date.now()`; the wall-clock instant used
by the aggregation is its seconds image. -/
def getAllRooms (cache : CacheState) (rooms : List Room)
    (bookings : List Booking) (nowMs : Nat) (user : Option Nat) :
    List RoomView × CacheState :=
  match cache.data with
  | some data =>
    if nowMs - cache.timestamp < CACHE_TTL_MS then (data, cache)
    else
      let views := computeRoomsView rooms bookings (nowMs / 1000) user.isNone
      (views, { data := some views, timestamp := nowMs })
  | none =>
    let views := computeRoomsView rooms bookings (nowMs / 1000) user.isNone
    (views, { data := some views, timestamp := nowMs })

/-- A room as shaped in the `GET /api/rooms/available` response. -/
structure AvailableRoomView where
  id : Nat
  name : String
  capacity : Nat
  status : RoomStatus
deriving DecidableEq, Repr

/-- The response shaping of `getAvailableRooms` for one room row. -/
def availableRoomView (r : Room) : AvailableRoomView :=
  { id := r.id, name := r.name, capacity := r.capacity
    status := normalizeRoomStatus (some r.status) }

/-- `getAvailableRooms` (`GET /api/rooms/available`): one query collects the
room ids of all confirmed bookings overlapping the requested interval
(across all rooms); rooms whose id occurs there are dropped, the rest are
normalized and only those with normalized status `active` are returned. -/
def getAvailableRooms (rooms : List Room) (bookings : List Booking)
    (reqStart reqEnd : Nat) : List AvailableRoomView :=
  let conflictingBookings := bookings.filter (fun b =>
    overlaps b.start_time b.end_time reqStart reqEnd
      && decide (b.status = .confirmed))
  let occupiedRoomIds := conflictingBookings.map Booking.room_id
  ((rooms.filter (fun r => !occupiedRoomIds.contains r.id)).map
      availableRoomView).filter
    (fun rv => rv.status == .active)

/-- A confirmed booking of room `room` covering the instant `t`
(`start ≤ t < end`). -/
def coversB (room t : Nat) (b : Booking) : Bool :=
  decide (b.status = .confirmed) && b.room_id == room
    && decide (b.start_time ≤ t) && decide (t < b.end_time)

/-- The core invariant of the spec: for every room and every instant, at most
one confirmed booking of that room covers it. -/
def NoDoubleBooking (bs : List Booking) : Prop :=
  ∀ room t, bs.countP (coversB room t) ≤ 1

/-- The schema-level shape of the booking table (`init-db.sql`): `id` is an
`AUTO_INCREMENT PRIMARY KEY`, so ids are pairwise distinct and below the
auto-increment counter. -/
def DBWellFormed (db : DB) : Prop :=
  (∀ b ∈ db.bookings, b.id < db.nextBookingId)
    ∧ (db.bookings.map Booking.id).Nodup

/-- One sequentially executed write operation of the booking lifecycle. -/
inductive Op where
  | create (req : CreateReq)
  | reschedule (userId : Nat) (isAdmin : Bool) (bookingId : Nat) (req : UpdateReq)
  | delete (userId : Nat) (isAdmin : Bool) (bookingId : Nat)

/-- The state reached after one operation (responses discarded). -/
def applyOp (db : DB) : Op → DB
  | .create req => (createBooking db req).1
  | .reschedule uid adm bid req => (updateBooking db uid adm bid req).1
  | .delete uid adm bid => (deleteBooking db uid adm bid).1

/-- Fixture: an active room. -/
def activeRoom : Room :=
  { id := 1, name := "Raum Eins", capacity := 4, status := "active" }

/-- Fixture: a second active room. -/
def roomTwo : Room :=
  { id := 2, name := "Raum Zwei", capacity := 8, status := "active" }

/-- Fixture: a room whose raw stored status is `occupied`. -/
def occupiedRoom : Room :=
  { id := 3, name := "Raum Drei", capacity := 2, status := "occupied" }

/-- Fixture: a valid create request by user 7 for room 1, interval [10, 20). -/
def validCreateReq : CreateReq :=
  { userId := some 7, room_id := some 1, title := some "Planung"
    name := none, guestName := none, comment := none
    date := none, startTime := none, endTime := none
    start_time := some 10, end_time := some 20 }

/-- Fixture: an empty database with one active room. -/
def emptyDb : DB := { rooms := [activeRoom], nextBookingId := 1, bookings := [] }

/-- Fixture: a collider stored first but starting later. -/
def lateCollider : Booking :=
  { id := 1, room_id := 1, name := "Spaeter Termin", start_time := 11
    end_time := 12, comment := none, created_by := some 7, status := .confirmed }

/-- Fixture: a collider stored second but starting earlier. -/
def earlyCollider : Booking :=
  { id := 2, room_id := 1, name := "Frueher Termin", start_time := 10
    end_time := 11, comment := none, created_by := some 7, status := .confirmed }

/-- Fixture: the booking table holding the later-starting collider first. -/
def storageOrderBookings : List Booking := [lateCollider, earlyCollider]

/-- Fixture: a database whose booking table is `storageOrderBookings`. -/
def storageOrderDb : DB :=
  { rooms := [activeRoom], nextBookingId := 5, bookings := storageOrderBookings }

/-- Fixture: a create request whose title sanitizes to the single letter A. -/
def oneLetterTitleReq : CreateReq :=
  { userId := some 7, room_id := some 1, title := some "A"
    name := none, guestName := none, comment := none
    date := none, startTime := none, endTime := none
    start_time := some 10, end_time := some 20 }

/-- Fixture: a booking owned by user 7. -/
def ownedBooking : Booking :=
  { id := 1, room_id := 1, name := "Alt", start_time := 10, end_time := 20
    comment := none, created_by := some 7, status := .confirmed }

/-- Fixture: a database holding only `ownedBooking`. -/
def ownedDb : DB :=
  { rooms := [activeRoom], nextBookingId := 2, bookings := [ownedBooking] }

/-- Fixture: an update request supplying a new start time but no end time. -/
def onlyStartUpdateReq : UpdateReq :=
  { title := some "NeuerTitel", comment := none, room_id := none
    date := none, startTime := none, endTime := none
    start_time := some 30, end_time := none }

/-- Fixture: a canceled booking of room 1 over [10, 20). -/
def canceledBooking : Booking :=
  { id := 1, room_id := 1, name := "Storniert", start_time := 10, end_time := 20
    comment := none, created_by := some 7, status := .canceled }

/-- Fixture: a confirmed booking of room 1 over the same slot [10, 20). -/
def occupyingBooking : Booking :=
  { id := 2, room_id := 1, name := "Aktiv", start_time := 10, end_time := 20
    comment := none, created_by := some 8, status := .confirmed }

/-- Fixture: the canceled booking and the confirmed one in one table. -/
def canceledSlotDb : DB :=
  { rooms := [activeRoom], nextBookingId := 3
    bookings := [canceledBooking, occupyingBooking] }

/-- Fixture: an update request rescheduling to exactly [10, 20) with no room
change. -/
def selfRescheduleReq : UpdateReq :=
  { title := some "Sitzung", comment := none, room_id := none
    date := none, startTime := none, endTime := none
    start_time := some 10, end_time := some 20 }

/-- Fixture: a lone confirmed booking of room 1 over [10, 20), user 7. -/
def confirmedSolo : Booking :=
  { id := 1, room_id := 1, name := "Sitzung", start_time := 10, end_time := 20
    comment := none, created_by := some 7, status := .confirmed }

/-- Fixture: a database holding only `confirmedSolo`. -/
def confirmedSoloDb : DB :=
  { rooms := [activeRoom], nextBookingId := 2, bookings := [confirmedSolo] }

/-- Fixture: a confirmed booking with a sensitive title, stored for day 10 of
the seconds encoding (interval [899000, 901000)). -/
def secretBooking : Booking :=
  { id := 4, room_id := 1, name := "Geheimprojekt", start_time := 899000
    end_time := 901000, comment := some "intern", created_by := some 7
    status := .confirmed }

/-- Fixture: the millisecond clock of the first (authenticated) rooms read,
`900000000 ms = 900000 s`, hour 10 of day 10. -/
def leakNowMs : Nat := 900000000

/-- Fixture: a create request by user 7 for the `occupied` room 3. -/
def occupiedRoomCreateReq : CreateReq :=
  { userId := some 7, room_id := some 3, title := some "Planung"
    name := none, guestName := none, comment := none
    date := none, startTime := none, endTime := none
    start_time := some 10, end_time := some 20 }

/-- Fixture: an empty database whose only room has raw status `occupied`. -/
def occupiedRoomDb : DB :=
  { rooms := [occupiedRoom], nextBookingId := 1, bookings := [] }

/-- Unfolded form of `coversB`: a confirmed booking of the room whose half-open interval contains the instant. -/
theorem coversB_eq_true (room t : Nat) (b : Booking) :
    coversB room t b = true ↔
      b.status = .confirmed ∧ b.room_id = room ∧ b.start_time ≤ t ∧ t < b.end_time := by
  simp [coversB, and_assoc]

/-- Unfolded form of the conflict WHERE clause without an exclusion id. -/
theorem matchesConflict_none_iff (roomId s e : Nat) (b : Booking) :
    matchesConflict roomId s e none b = true ↔
      b.room_id = roomId ∧ b.start_time < e ∧ s < b.end_time ∧ b.status = .confirmed := by
  simp [matchesConflict, overlaps, and_assoc]

/-- Unfolded form of the conflict WHERE clause with a reschedule exclusion id. -/
theorem matchesConflict_some_iff (roomId s e ex : Nat) (b : Booking) :
    matchesConflict roomId s e (some ex) b = true ↔
      b.room_id = roomId ∧ b.id ≠ ex ∧ b.start_time < e ∧ s < b.end_time ∧ b.status = .confirmed := by
  simp [matchesConflict, overlaps, and_assoc]

/-- Claim C2: every conflict SELECT treats intervals as half-open — a booking is in the result exactly when it is a confirmed booking of the room, passes the optional exclusion, and `overlaps` holds, i.e. `aStart < bEnd` and `aEnd > bStart`; intervals that merely touch (`aEnd = bStart`) are never reported as overlapping, and a nonempty interval compared with an identical one is. -/
theorem conflict_query_is_halfopen_overlap :
    (∀ bs roomId s e excl b,
       b ∈ conflictQuery bs roomId s e excl ↔
         b ∈ bs ∧ b.room_id = roomId ∧ (∀ ex, excl = some ex → b.id ≠ ex) ∧
           b.status = .confirmed ∧ overlaps b.start_time b.end_time s e = true) ∧
    (∀ aS aE bS bE, aE = bS → overlaps aS aE bS bE = false) ∧
    (∀ aS aE, aS < aE → overlaps aS aE aS aE = true) := by
  refine ⟨?_, ?_, ?_⟩
  · intro bs roomId s e excl b
    cases excl with
    | none =>
      simp [conflictQuery, List.mem_filter, matchesConflict_none_iff, overlaps]
      tauto
    | some ex =>
      simp [conflictQuery, List.mem_filter, matchesConflict_some_iff, overlaps]
      tauto
  · intro aS aE bS bE h
    subst h
    simp [overlaps]
  · intro aS aE h
    simp [overlaps, h]

/-- Witness for C2 at the spec's own instants (10:00–11:00 vs 11:00–12:00 in seconds-of-day, and an interval against itself). -/
theorem conflict_query_halfopen_witness :
    overlaps 600 660 660 720 = false ∧ overlaps 600 660 600 660 = true :=
  ⟨conflict_query_is_halfopen_overlap.2.1 600 660 660 720 rfl,
   conflict_query_is_halfopen_overlap.2.2 600 660 (by decide)⟩

/-- Claim C4, counterexample: with the later-starting collider stored first, the conflict probe reports the later-starting booking even though an earlier-starting collider exists, so the reported collider is not the earliest-starting one. -/
theorem reported_conflict_not_earliest :
    checkBookingConflict storageOrderBookings 1 10 20 = some lateCollider ∧
    earlyCollider ∈ conflictQuery storageOrderBookings 1 10 20 none ∧
    lateCollider ∈ conflictQuery storageOrderBookings 1 10 20 none ∧
    earlyCollider.start_time < lateCollider.start_time := by decide

/-- A conflict response of `createBooking` is the head of the conflict SELECT's result list. -/
theorem createBooking_conflict_head (db : DB) (req : CreateReq) (c : Booking)
    (h : (createBooking db req).2 = .conflict c) :
    ∃ roomId s e, req.room_id = some roomId ∧
      selectTimes req.date req.startTime req.endTime req.start_time req.end_time
        = some (s, e) ∧
      (conflictQuery db.bookings roomId s e none).head? = some c := by
  unfold createBooking at h
  rcases hT : validateAndSanitizeTitle (rawTitleOf req) with m | ttl <;> rw [hT] at h
  · simp at h
  rcases hC : validateAndSanitizeComment req.comment with m | cmt <;> rw [hC] at h
  · simp at h
  rcases hS : selectTimes req.date req.startTime req.endTime req.start_time req.end_time
      with _ | ⟨s, e⟩ <;> rw [hS] at h
  · simp at h
  rcases hR : req.room_id with _ | roomId <;> rw [hR] at h
  · simp at h
  dsimp only at h
  by_cases h0 : roomId = 0
  · simp [h0] at h
  rw [if_neg h0] at h
  by_cases hd : calculateSecondsBetweenNaive s e ≤ 0
  · rw [if_pos hd] at h; simp at h
  rw [if_neg hd] at h
  rcases hF : db.rooms.find? (fun r => r.id == roomId) with _ | room <;> rw [hF] at h
  · simp at h
  dsimp only at h
  by_cases hg : !roomGatePasses room.status
  · rw [if_pos hg] at h; simp at h
  rw [if_neg hg] at h
  rcases hq : conflictQuery db.bookings roomId s e none with _ | ⟨c0, rest⟩ <;>
    rw [hq] at h
  · simp at h
  · simp at h
    exact ⟨roomId, s, e, rfl, rfl, by rw [hq, List.head?_cons, h]⟩

/-- A conflict response of `updateBooking` is the head of the conflict SELECT's result list for the target room, excluding the booking itself. -/
theorem updateBooking_conflict_head (db : DB) (uid : Nat) (adm : Bool) (bid : Nat)
    (req : UpdateReq) (c : Booking)
    (h : (updateBooking db uid adm bid req).2 = .conflict c) :
    ∃ b s e, db.bookings.find? (fun x => x.id == bid) = some b ∧
      selectTimes req.date req.startTime req.endTime req.start_time req.end_time
        = some (s, e) ∧
      (conflictQuery db.bookings (req.room_id.getD b.room_id) s e (some bid)).head?
        = some c := by
  unfold updateBooking at h
  rcases hT : validateAndSanitizeTitle req.title with m | ttl <;> rw [hT] at h
  · simp at h
  rcases hC : validateAndSanitizeComment req.comment with m | cmt <;> rw [hC] at h
  · simp at h
  rcases hF : db.bookings.find? (fun b => b.id == bid) with _ | booking <;> rw [hF] at h
  · simp at h
  dsimp only at h
  by_cases hown : !adm && !(booking.created_by == some uid)
  · rw [if_pos hown] at h; simp at h
  rw [if_neg hown] at h
  rcases hS : selectTimes req.date req.startTime req.endTime req.start_time req.end_time
      with _ | ⟨s, e⟩ <;> rw [hS] at h
  · simp at h
  dsimp only at h
  by_cases hd : calculateSecondsBetweenNaive s e ≤ 0
  · rw [if_pos hd] at h; simp at h
  rw [if_neg hd] at h
  rcases hq : conflictQuery db.bookings (req.room_id.getD booking.room_id) s e (some bid)
      with _ | ⟨c0, rest⟩ <;> rw [hq] at h
  · simp at h
  · simp at h
    exact ⟨booking, s, e, hF, rfl, by rw [hq, List.head?_cons, h]⟩

/-- Claim C4, amended: in the conflict probe, in create and in reschedule, the colliding booking reported is `rows[0]` — the first collider in storage order of the conflict SELECT, which has no ORDER BY — not necessarily the earliest-starting collider. -/
theorem reported_conflict_first_in_storage_order :
    (∀ bs roomId s e,
       checkBookingConflict bs roomId s e = (conflictQuery bs roomId s e none).head?) ∧
    (∀ db req c, (createBooking db req).2 = .conflict c →
       ∃ roomId s e, req.room_id = some roomId ∧
         selectTimes req.date req.startTime req.endTime req.start_time req.end_time
           = some (s, e) ∧
         (conflictQuery db.bookings roomId s e none).head? = some c) ∧
    (∀ db uid adm bid req c, (updateBooking db uid adm bid req).2 = .conflict c →
       ∃ b s e, db.bookings.find? (fun x => x.id == bid) = some b ∧
         selectTimes req.date req.startTime req.endTime req.start_time req.end_time
           = some (s, e) ∧
         (conflictQuery db.bookings (req.room_id.getD b.room_id) s e (some bid)).head?
           = some c) :=
  ⟨fun _ _ _ _ => rfl,
   fun db req c h => createBooking_conflict_head db req c h,
   fun db uid adm bid req c h => updateBooking_conflict_head db uid adm bid req c h⟩

/-- Witness for the amended C4: the concrete conflicting create reports the first stored collider. -/
theorem reported_conflict_first_in_storage_order_witness :
    ∃ roomId s e, validCreateReq.room_id = some roomId ∧
      selectTimes validCreateReq.date validCreateReq.startTime validCreateReq.endTime
        validCreateReq.start_time validCreateReq.end_time = some (s, e) ∧
      (conflictQuery storageOrderDb.bookings roomId s e none).head?
        = some lateCollider :=
  reported_conflict_first_in_storage_order.2.1 storageOrderDb validCreateReq
    lateCollider (by decide)

/-- Claim C9: in the aggregated rooms view, when the current hour is below 8 or at least 20 every room's displayed status is `night_rest` regardless of its stored status, and during [8, 20) the displayed status equals the normalized stored status. The projection is a pure function of the room rows; it issues no writes, so the stored status is untouched by construction. -/
theorem business_hours_override_displayed_status (rooms : List Room)
    (bookings : List Booking) (now : Nat) (isGuest : Bool) :
    (computeRoomsView rooms bookings now isGuest).map RoomView.status =
      rooms.map (fun r =>
        if hourOf now < 8 ∨ 20 ≤ hourOf now then .night_rest
        else normalizeRoomStatus (some r.status)) := by
  unfold computeRoomsView
  rw [List.map_map]
  apply List.map_congr_left
  intro r _
  by_cases h : hourOf now < 8 ∨ 20 ≤ hourOf now <;>
    simp [Function.comp, h]

/-- Claim C10: the room-admission gate of create compares the lowercased raw stored status against exactly the two strings `inactive` and `maintenance`; every other status string passes the gate — in particular `occupied`, which the read-side normalization displays as `inactive`, and a booking is then created for such a room. -/
theorem create_gate_checks_raw_lowercased_status :
    (∀ status : String, jsToLower status ≠ "inactive" → jsToLower status ≠ "maintenance" →
       roomGatePasses status = true) ∧
    roomGatePasses "occupied" = true ∧
    normalizeRoomStatus (some "occupied") = .inactive ∧
    (createBooking occupiedRoomDb occupiedRoomCreateReq).2 = .created 1 := by
  refine ⟨?_, by decide, by decide, by decide⟩
  intro st h1 h2
  simp [roomGatePasses, h1, h2]

/-- Witness for C10: a differently-cased `Occupied` status passes the gate. -/
theorem create_gate_checks_raw_lowercased_status_witness :
    roomGatePasses "Occupied" = true :=
  create_gate_checks_raw_lowercased_status.1 "Occupied" (by decide) (by decide)

/-- Claim C8: `getAvailableRooms` returns exactly the rooms whose normalized stored status is `active` and that have no confirmed booking overlapping the requested half-open interval; rooms with a colliding confirmed booking, and rooms normalizing to maintenance or inactive, are absent. -/
theorem available_rooms_characterization (rooms : List Room)
    (bookings : List Booking) (s e : Nat) (v : AvailableRoomView) :
    v ∈ getAvailableRooms rooms bookings s e ↔
      ∃ r ∈ rooms, v = availableRoomView r ∧
        normalizeRoomStatus (some r.status) = .active ∧
        ∀ b ∈ bookings, b.status = .confirmed →
          overlaps b.start_time b.end_time s e = true → b.room_id ≠ r.id := by
  simp only [getAvailableRooms, List.mem_filter, List.mem_map, beq_iff_eq,
    Bool.not_eq_true', List.elem_eq_mem, decide_eq_false_iff_not,
    Bool.and_eq_true, decide_eq_true_eq]
  constructor
  · rintro ⟨⟨r, ⟨hr, hocc⟩, rfl⟩, hst⟩
    refine ⟨r, hr, rfl, hst, ?_⟩
    intro b hb hbst hbov hbroom
    exact hocc ⟨b, ⟨hb, hbov, hbst⟩, hbroom⟩
  · rintro ⟨r, hr, rfl, hst, hfree⟩
    refine ⟨⟨r, ⟨hr, ?_⟩, rfl⟩, hst⟩
    rintro ⟨b, ⟨hb, hbov, hbst⟩, hbroom⟩
    exact hfree b hb hbst hbov hbroom

/-- Witness for C8: with a confirmed booking on room 1, only room 2 is available for the very slot. -/
theorem available_rooms_characterization_witness :
    availableRoomView roomTwo ∈ getAvailableRooms [activeRoom, roomTwo]
      [confirmedSolo] 10 20 :=
  (available_rooms_characterization [activeRoom, roomTwo] [confirmedSolo] 10 20
      (availableRoomView roomTwo)).mpr
    ⟨roomTwo, by decide, rfl, by decide, by decide⟩

/-- Claim C3, failing trace: the rooms cache of `cache.service.ts` is keyed by nothing — not by the requesting identity — and `getAllRooms` serves it before looking at the session. After an authenticated read fills the cache, a guest read within the 45-second TTL receives the cached response, which carries the real booking title instead of the fixed redaction placeholder `Belegt`. -/
theorem guest_cache_title_leak :
    ∃ rv ∈ (getAllRooms
        (getAllRooms emptyCache [activeRoom] [secretBooking] leakNowMs (some 7)).2
        [activeRoom] [secretBooking] (leakNowMs + 1000) none).1,
      ∃ bk ∈ rv.allBookingsToday,
        bk.title = "Geheimprojekt" ∧ bk.title ≠ "Belegt" := by decide

/-- Claim C5, counterexample: a title that sanitizes to the single character `A` has sanitized length 1, inside the claimed [1, 200] range, yet create rejects it with the at-least-2-characters validation error and leaves the state unchanged — the code's lower bound is 2, not 1. -/
theorem one_char_title_rejected :
    sanitizeInput (some "A") = some "A" ∧ ("A" : String).length = 1 ∧
    (createBooking emptyDb oneLetterTitleReq).2
      = .validationError "Der Titel muss mindestens 2 Zeichen lang sein." ∧
    (createBooking emptyDb oneLetterTitleReq).1 = emptyDb := by decide

/-- Claim C6, counterexample: an update request supplying `start_time` but no `end_time` is not rejected — it succeeds as a metadata-only update: the stored title changes while the stored start time stays. -/
theorem partial_time_fields_update_not_rejected :
    onlyStartUpdateReq.start_time = some 30 ∧ onlyStartUpdateReq.end_time = none ∧
    (updateBooking ownedDb 7 false 1 onlyStartUpdateReq).2 = .updated ∧
    ((updateBooking ownedDb 7 false 1 onlyStartUpdateReq).1.bookings.map Booking.name)
      = ["NeuerTitel"] ∧
    ownedBooking.name = "Alt" ∧
    ((updateBooking ownedDb 7 false 1 onlyStartUpdateReq).1.bookings.map Booking.start_time)
      = [10] := by decide

/-- Claim C7, counterexample: rescheduling a canceled booking to exactly its own interval in its own room does report a conflict when a confirmed booking of another user occupies the same slot, so the claim fails without a confirmed-status hypothesis. -/
theorem self_reschedule_of_canceled_booking_conflicts :
    selfRescheduleReq.start_time = some canceledBooking.start_time ∧
    selfRescheduleReq.end_time = some canceledBooking.end_time ∧
    selfRescheduleReq.room_id = none ∧
    (updateBooking canceledSlotDb 7 false canceledBooking.id selfRescheduleReq).2
      = .conflict occupyingBooking := by decide

/-- Two distinct members both satisfying a predicate force a count of at least two. -/
theorem two_le_countP {α : Type} (p : α → Bool) {l : List α} {a b : α}
    (ha : a ∈ l) (hb : b ∈ l) (hab : a ≠ b)
    (hpa : p a = true) (hpb : p b = true) : 2 ≤ l.countP p := by
  obtain ⟨s, t, rfl⟩ := List.append_of_mem ha
  rw [List.countP_append, List.countP_cons_of_pos p t hpa]
  rcases List.mem_append.mp hb with hbs | hbt
  · have : 0 < s.countP p := List.countP_pos_iff.mpr ⟨b, hbs, hpb⟩
    omega
  · rcases List.mem_cons.mp hbt with rfl | hbt
    · exact absurd rfl hab
    · have : 0 < t.countP p := List.countP_pos_iff.mpr ⟨b, hbt, hpb⟩
      omega

/-- Filtering first can only lower a count. -/
theorem countP_filter_le {α : Type} (p q : α → Bool) (l : List α) :
    (l.filter q).countP p ≤ l.countP p := by
  induction l with
  | nil => simp
  | cons a t ih =>
    by_cases hq : q a <;> by_cases hp : p a <;>
      simp [List.filter_cons, List.countP_cons, hq, hp] <;> omega

/-- Appending a booking that passed its conflict SELECT preserves the no-double-booking invariant. -/
theorem noDouble_insert (bs : List Booking) (nb : Booking)
    (hq : conflictQuery bs nb.room_id nb.start_time nb.end_time none = [])
    (hinv : NoDoubleBooking bs) : NoDoubleBooking (bs ++ [nb]) := by
  intro room t
  rw [List.countP_append]
  by_cases hc : coversB room t nb = true
  · have h0 : bs.countP (coversB room t) = 0 := by
      rw [List.countP_eq_zero]
      intro b hb hbc
      obtain ⟨hst, hroom, hle, hlt⟩ := (coversB_eq_true room t b).mp hbc
      obtain ⟨hstn, hroomn, hlen, hltn⟩ := (coversB_eq_true room t nb).mp hc
      have hbq : b ∈ conflictQuery bs nb.room_id nb.start_time nb.end_time none :=
        List.mem_filter.mpr ⟨hb, (matchesConflict_none_iff nb.room_id
          nb.start_time nb.end_time b).mpr
            ⟨by omega, by omega, by omega, hst⟩⟩
      rw [hq] at hbq
      simp at hbq
    have h1 : List.countP (coversB room t) [nb] ≤ 1 :=
      le_trans (List.countP_le_length _) (by simp)
    omega
  · have h1 : List.countP (coversB room t) [nb] = 0 := by
      simp [List.countP_cons, hc]
    have := hinv room t
    omega

/-- A metadata-only update never changes coverage. -/
theorem coversB_metadata (room t bid : Nat) (ttl : String) (cmt : Option String)
    (b : Booking) :
    coversB room t (applyMetadataUpdate bid ttl cmt b) = coversB room t b := by
  unfold applyMetadataUpdate
  split <;> rfl

/-- A metadata-only update keeps id, room, times and status. -/
theorem applyMetadataUpdate_fields (bid : Nat) (ttl : String) (cmt : Option String)
    (b : Booking) :
    (applyMetadataUpdate bid ttl cmt b).id = b.id ∧
    (applyMetadataUpdate bid ttl cmt b).room_id = b.room_id ∧
    (applyMetadataUpdate bid ttl cmt b).start_time = b.start_time ∧
    (applyMetadataUpdate bid ttl cmt b).end_time = b.end_time ∧
    (applyMetadataUpdate bid ttl cmt b).status = b.status := by
  unfold applyMetadataUpdate
  split <;> exact ⟨rfl, rfl, rfl, rfl, rfl⟩

/-- A reschedule update keeps the primary key. -/
theorem applyReschedule_id (bid target s e : Nat) (ttl : String)
    (cmt : Option String) (b : Booking) :
    (applyReschedule bid target s e ttl cmt b).id = b.id := by
  unfold applyReschedule
  split <;> rfl

/-- A metadata-only UPDATE preserves the no-double-booking invariant. -/
theorem noDouble_metadata (bs : List Booking) (bid : Nat) (ttl : String)
    (cmt : Option String) (hinv : NoDoubleBooking bs) :
    NoDoubleBooking (bs.map (applyMetadataUpdate bid ttl cmt)) := by
  intro room t
  rw [List.countP_map]
  have : (coversB room t ∘ applyMetadataUpdate bid ttl cmt) = coversB room t :=
    funext fun b => coversB_metadata room t bid ttl cmt b
  rw [this]
  exact hinv room t

/-- A reschedule whose conflict SELECT (excluding the booking itself) came back empty preserves the no-double-booking invariant, given distinct primary keys. -/
theorem noDouble_reschedule (bs : List Booking) (bid target s e : Nat)
    (ttl : String) (cmt : Option String)
    (hnd : (bs.map Booking.id).Nodup)
    (hq : conflictQuery bs target s e (some bid) = [])
    (hinv : NoDoubleBooking bs) :
    NoDoubleBooking (bs.map (applyReschedule bid target s e ttl cmt)) := by
  intro room t
  rw [List.countP_map]
  by_cases hA : ∃ b ∈ bs, b.id = bid ∧
      coversB room t (applyReschedule bid target s e ttl cmt b) = true
  · have key : ∀ b ∈ bs,
        (coversB room t ∘ applyReschedule bid target s e ttl cmt) b = true →
        (b.id == bid) = true := by
      intro b hb hc
      by_cases hid : b.id = bid
      · simp [hid]
      · exfalso
        have hgb : applyReschedule bid target s e ttl cmt b = b := by
          unfold applyReschedule
          rw [if_neg hid]
        rw [Function.comp_apply, hgb] at hc
        obtain ⟨b0, hb0, hb0id, hb0c⟩ := hA
        have hg0 : applyReschedule bid target s e ttl cmt b0 =
            { b0 with
                room_id := target
                name := ttl
                start_time := s
                end_time := e
                comment := cmt } := by
          unfold applyReschedule
          rw [if_pos hb0id]
        rw [hg0] at hb0c
        obtain ⟨h0st, h0room, h0le, h0lt⟩ := (coversB_eq_true room t _).mp hb0c
        dsimp only at h0st h0room h0le h0lt
        obtain ⟨hst, hroom, hle, hlt⟩ := (coversB_eq_true room t b).mp hc
        have hbq : b ∈ conflictQuery bs target s e (some bid) :=
          List.mem_filter.mpr ⟨hb, (matchesConflict_some_iff target s e bid b).mpr
            ⟨by simp_all, hid, by omega, by omega, hst⟩⟩
        rw [hq] at hbq
        simp at hbq
    calc bs.countP (coversB room t ∘ applyReschedule bid target s e ttl cmt)
        ≤ bs.countP (fun b => b.id == bid) := List.countP_mono_left key
      _ ≤ 1 := by
          have hcount := (List.nodup_iff_count_le_one.mp hnd) bid
          rw [List.count_eq_countP, List.countP_map] at hcount
          exact hcount
  · have key2 : ∀ b ∈ bs,
        (coversB room t ∘ applyReschedule bid target s e ttl cmt) b = true →
        coversB room t b = true := by
      intro b hb hc
      by_cases hid : b.id = bid
      · exact absurd ⟨b, hb, hid, hc⟩ hA
      · have hgb : applyReschedule bid target s e ttl cmt b = b := by
          unfold applyReschedule
          rw [if_neg hid]
        rwa [Function.comp_apply, hgb] at hc
    exact le_trans (List.countP_mono_left key2) (hinv room t)

/-- Deleting rows preserves the no-double-booking invariant. -/
theorem noDouble_delete (bs : List Booking) (bid : Nat)
    (hinv : NoDoubleBooking bs) :
    NoDoubleBooking (bs.filter (fun b => b.id != bid)) := by
  intro room t
  exact le_trans (countP_filter_le _ _ bs) (hinv room t)

/-- `createBooking` either leaves the state unchanged or appends one fresh confirmed booking whose conflict SELECT came back empty. -/
theorem createBooking_state_cases (db : DB) (req : CreateReq) :
    (createBooking db req).1 = db ∨
    ∃ nb : Booking,
      nb.id = db.nextBookingId ∧ nb.status = .confirmed ∧
      conflictQuery db.bookings nb.room_id nb.start_time nb.end_time none = [] ∧
      (createBooking db req).1.bookings = db.bookings ++ [nb] ∧
      (createBooking db req).1.nextBookingId = db.nextBookingId + 1 := by
  unfold createBooking
  rcases hT : validateAndSanitizeTitle (rawTitleOf req) with m | ttl <;> dsimp only
  · exact Or.inl rfl
  rcases hC : validateAndSanitizeComment req.comment with m | cmt <;> dsimp only
  · exact Or.inl rfl
  rcases hS : selectTimes req.date req.startTime req.endTime req.start_time req.end_time
      with _ | ⟨s, e⟩ <;> dsimp only
  · exact Or.inl rfl
  rcases hR : req.room_id with _ | roomId <;> dsimp only
  · exact Or.inl rfl
  by_cases h0 : roomId = 0
  · rw [if_pos h0]
    exact Or.inl rfl
  rw [if_neg h0]
  by_cases hd : calculateSecondsBetweenNaive s e ≤ 0
  · rw [if_pos hd]
    exact Or.inl rfl
  rw [if_neg hd]
  rcases hF : db.rooms.find? (fun r => r.id == roomId) with _ | room <;>
      rw [hF] <;> dsimp only
  · exact Or.inl rfl
  by_cases hg : (!roomGatePasses room.status) = true
  · rw [if_pos hg]
    exact Or.inl rfl
  rw [if_neg hg]
  rcases hq : conflictQuery db.bookings roomId s e none with _ | ⟨c0, rest⟩ <;>
      dsimp only
  · exact Or.inr ⟨_, rfl, rfl, hq, rfl, rfl⟩
  · exact Or.inl rfl

/-- `updateBooking` leaves the state unchanged, applies a metadata-only UPDATE, or applies a reschedule UPDATE whose conflict SELECT came back empty. -/
theorem updateBooking_state_cases (db : DB) (uid : Nat) (adm : Bool) (bid : Nat)
    (req : UpdateReq) :
    (updateBooking db uid adm bid req).1 = db ∨
    (∃ ttl cmt,
       (updateBooking db uid adm bid req).1.bookings
         = db.bookings.map (applyMetadataUpdate bid ttl cmt) ∧
       (updateBooking db uid adm bid req).1.nextBookingId = db.nextBookingId) ∨
    (∃ target s e ttl cmt,
       conflictQuery db.bookings target s e (some bid) = [] ∧
       (updateBooking db uid adm bid req).1.bookings
         = db.bookings.map (applyReschedule bid target s e ttl cmt) ∧
       (updateBooking db uid adm bid req).1.nextBookingId = db.nextBookingId) := by
  unfold updateBooking
  rcases hT : validateAndSanitizeTitle req.title with m | ttl <;> dsimp only
  · exact Or.inl rfl
  rcases hC : validateAndSanitizeComment req.comment with m | cmt <;> dsimp only
  · exact Or.inl rfl
  rcases hF : db.bookings.find? (fun b => b.id == bid) with _ | booking <;>
      rw [hF] <;> dsimp only
  · exact Or.inl rfl
  by_cases hown : (!adm && !(booking.created_by == some uid)) = true
  · rw [if_pos hown]
    exact Or.inl rfl
  rw [if_neg hown]
  rcases hS : selectTimes req.date req.startTime req.endTime req.start_time req.end_time
      with _ | ⟨s, e⟩ <;> dsimp only
  · exact Or.inr (Or.inl ⟨ttl, cmt, rfl, rfl⟩)
  by_cases hd : calculateSecondsBetweenNaive s e ≤ 0
  · rw [if_pos hd]
    exact Or.inl rfl
  rw [if_neg hd]
  rcases hq : conflictQuery db.bookings (req.room_id.getD booking.room_id) s e (some bid)
      with _ | ⟨c0, rest⟩ <;> dsimp only
  · exact Or.inr (Or.inr
      ⟨req.room_id.getD booking.room_id, s, e, ttl, cmt, hq, rfl, rfl⟩)
  · exact Or.inl rfl

/-- `deleteBooking` either leaves the state unchanged or deletes the rows with the given id. -/
theorem deleteBooking_state_cases (db : DB) (uid : Nat) (adm : Bool) (bid : Nat) :
    (deleteBooking db uid adm bid).1 = db ∨
    ((deleteBooking db uid adm bid).1.bookings
       = db.bookings.filter (fun b => b.id != bid) ∧
     (deleteBooking db uid adm bid).1.nextBookingId = db.nextBookingId) := by
  unfold deleteBooking
  rcases hF : db.bookings.find? (fun b => b.id == bid) with _ | booking <;>
      rw [hF] <;> dsimp only
  · exact Or.inl rfl
  by_cases hown : (!adm && !(booking.created_by == some uid)) = true
  · rw [if_pos hown]
    exact Or.inl rfl
  rw [if_neg hown]
  exact Or.inr ⟨rfl, rfl⟩

/-- Appending a row with a fresh id keeps the primary keys distinct. -/
theorem nodup_ids_insert (bs : List Booking) (nb : Booking) (n : Nat)
    (hb : ∀ b ∈ bs, b.id < n) (hnb : nb.id = n)
    (hnd : (bs.map Booking.id).Nodup) :
    ((bs ++ [nb]).map Booking.id).Nodup := by
  rw [List.map_append]
  have hperm : (bs.map Booking.id ++ [nb].map Booking.id).Perm
      (nb.id :: bs.map Booking.id) := by
    simp [List.perm_append_singleton]
  rw [hperm.nodup_iff, List.nodup_cons]
  refine ⟨?_, hnd⟩
  intro hmem
  obtain ⟨b, hbmem, hbid⟩ := List.mem_map.mp hmem
  have := hb b hbmem
  omega

/-- Claim C1: starting from any state where no two confirmed bookings of the same room overlap — formally, for every room and every instant at most one confirmed booking covers it — and whose booking table has the primary-key shape of the schema (distinct ids below the auto-increment counter), every sequentially executed create, reschedule and delete operation preserves both the schema shape and the no-double-booking invariant. -/
theorem booking_ops_preserve_no_double_booking (db : DB) (op : Op)
    (hwf : DBWellFormed db) (hinv : NoDoubleBooking db.bookings) :
    DBWellFormed (applyOp db op) ∧ NoDoubleBooking (applyOp db op).bookings := by
  obtain ⟨hbound, hnd⟩ := hwf
  cases op with
  | create req =>
    simp only [applyOp]
    rcases createBooking_state_cases db req with h | ⟨nb, hid, hst, hq, hbk, hnx⟩
    · rw [h]; exact ⟨⟨hbound, hnd⟩, hinv⟩
    · refine ⟨⟨?_, ?_⟩, ?_⟩
      · intro b hb
        rw [hbk] at hb
        rw [hnx]
        rcases List.mem_append.mp hb with hbold | hbnew
        · have := hbound b hbold; omega
        · rw [List.mem_singleton.mp hbnew, hid]; omega
      · rw [hbk]
        exact nodup_ids_insert db.bookings nb db.nextBookingId hbound hid hnd
      · rw [hbk]
        exact noDouble_insert db.bookings nb hq hinv
  | reschedule uid adm bid req =>
    simp only [applyOp]
    rcases updateBooking_state_cases db uid adm bid req with
      h | ⟨ttl, cmt, hbk, hnx⟩ | ⟨target, s, e, ttl, cmt, hq, hbk, hnx⟩
    · rw [h]; exact ⟨⟨hbound, hnd⟩, hinv⟩
    · refine ⟨⟨?_, ?_⟩, ?_⟩
      · intro b hb
        rw [hbk] at hb
        rw [hnx]
        obtain ⟨b0, hb0, rfl⟩ := List.mem_map.mp hb
        rw [(applyMetadataUpdate_fields bid ttl cmt b0).1]
        exact hbound b0 hb0
      · rw [hbk, List.map_map]
        have heq : (Booking.id ∘ applyMetadataUpdate bid ttl cmt) = Booking.id :=
          funext fun b => (applyMetadataUpdate_fields bid ttl cmt b).1
        rw [heq]
        exact hnd
      · rw [hbk]
        exact noDouble_metadata db.bookings bid ttl cmt hinv
    · refine ⟨⟨?_, ?_⟩, ?_⟩
      · intro b hb
        rw [hbk] at hb
        rw [hnx]
        obtain ⟨b0, hb0, rfl⟩ := List.mem_map.mp hb
        rw [applyReschedule_id bid target s e ttl cmt b0]
        exact hbound b0 hb0
      · rw [hbk, List.map_map]
        have heq : (Booking.id ∘ applyReschedule bid target s e ttl cmt) = Booking.id :=
          funext fun b => applyReschedule_id bid target s e ttl cmt b
        rw [heq]
        exact hnd
      · rw [hbk]
        exact noDouble_reschedule db.bookings bid target s e ttl cmt hnd hq hinv
  | delete uid adm bid =>
    simp only [applyOp]
    rcases deleteBooking_state_cases db uid adm bid with h | ⟨hbk, hnx⟩
    · rw [h]; exact ⟨⟨hbound, hnd⟩, hinv⟩
    · refine ⟨⟨?_, ?_⟩, ?_⟩
      · intro b hb
        rw [hbk] at hb
        rw [hnx]
        exact hbound b (List.mem_filter.mp hb).1
      · rw [hbk]
        exact List.Nodup.sublist
          ((List.filter_sublist db.bookings).map Booking.id) hnd
      · rw [hbk]
        exact noDouble_delete db.bookings bid hinv

/-- Witness for C1: the empty database is well formed and invariant, and stays so across a create. -/
theorem booking_ops_preserve_no_double_booking_witness :
    DBWellFormed emptyDb ∧ NoDoubleBooking emptyDb.bookings ∧
    (DBWellFormed (applyOp emptyDb (.create validCreateReq)) ∧
      NoDoubleBooking (applyOp emptyDb (.create validCreateReq)).bookings) := by
  have hwf : DBWellFormed emptyDb := by
    constructor
    · intro b hb
      simp [emptyDb] at hb
    · simp [emptyDb]
  have hinv : NoDoubleBooking emptyDb.bookings := by
    intro room t
    simp [emptyDb]
  exact ⟨hwf, hinv,
    booking_ops_preserve_no_double_booking emptyDb (.create validCreateReq) hwf hinv⟩

/-- The title validation succeeds exactly on inputs sanitizing to 2–200 characters. -/
theorem title_ok_iff (ttl : Option String) (san : String) :
    validateAndSanitizeTitle ttl = .ok san ↔
      sanitizeInput ttl = some san ∧ 2 ≤ san.length ∧ san.length ≤ 200 := by
  constructor
  · intro h
    unfold validateAndSanitizeTitle at h
    rcases hs' : sanitizeInput ttl with _ | s' <;> rw [hs'] at h <;> dsimp only at h
    · simp at h
    · by_cases hlen : s'.length < 2
      · rw [if_pos hlen] at h; simp at h
      rw [if_neg hlen] at h
      by_cases hlen2 : s'.length > 200
      · rw [if_pos hlen2] at h; simp at h
      rw [if_neg hlen2] at h
      have hss : s' = san := by injection h
      subst hss
      exact ⟨rfl, by omega, by omega⟩
  · rintro ⟨hsan, hge, hle⟩
    unfold validateAndSanitizeTitle
    rw [hsan]
    dsimp only
    rw [if_neg (by omega), if_neg (by omega)]

/-- Claim C5, amended: for a create request with a complete time pair and a room id, the response is a validation error exactly when the title check fails (sanitized title missing or length outside [2, 200] — the code's lower bound is 2, not the claimed 1), the comment check fails (sanitized comment over 1000 characters), or the end does not lie strictly after the start; a validation error never changes the state; and the title check passes exactly on sanitized lengths in [2, 200]. -/
theorem create_validation_exact (db : DB) (req : CreateReq) (s e roomId : Nat)
    (hsel : selectTimes req.date req.startTime req.endTime req.start_time req.end_time
      = some (s, e))
    (hroom : req.room_id = some roomId) (h0 : roomId ≠ 0) :
    ((∃ m, (createBooking db req).2 = .validationError m) ↔
       (∃ m, validateAndSanitizeTitle (rawTitleOf req) = .error m) ∨
       (∃ m, validateAndSanitizeComment req.comment = .error m) ∨ e ≤ s) ∧
    (∀ m, (createBooking db req).2 = .validationError m →
       (createBooking db req).1 = db) ∧
    (∀ ttl san, validateAndSanitizeTitle ttl = .ok san ↔
       sanitizeInput ttl = some san ∧ 2 ≤ san.length ∧ san.length ≤ 200) := by
  refine and_assoc.mp ⟨?_, fun ttl san => title_ok_iff ttl san⟩
  rcases hT : validateAndSanitizeTitle (rawTitleOf req) with m | ttl
  · have hr : createBooking db req = (db, .validationError m) := by
      unfold createBooking; rw [hT]
    refine ⟨iff_of_true ⟨m, by rw [hr]⟩ (Or.inl ⟨m, rfl⟩), ?_⟩
    intro m' _
    rw [hr]
  rcases hC : validateAndSanitizeComment req.comment with m | cmt
  · have hr : createBooking db req = (db, .validationError m) := by
      unfold createBooking; rw [hT, hC]
    refine ⟨iff_of_true ⟨m, by rw [hr]⟩ (Or.inr (Or.inl ⟨m, rfl⟩)), ?_⟩
    intro m' _
    rw [hr]
  by_cases hd : calculateSecondsBetweenNaive s e ≤ 0
  · have hr : createBooking db req =
        (db, .validationError "Die Endzeit muss nach der Startzeit liegen.") := by
      unfold createBooking
      rw [hT, hC, hsel, hroom]
      dsimp only
      rw [if_neg h0, if_pos hd]
    have hes : e ≤ s := by
      unfold calculateSecondsBetweenNaive at hd
      omega
    refine ⟨iff_of_true ⟨_, by rw [hr]⟩ (Or.inr (Or.inr hes)), ?_⟩
    intro m' _
    rw [hr]
  have hse : ¬e ≤ s := by
    unfold calculateSecondsBetweenNaive at hd
    omega
  have hrhs : ¬((∃ m, (Except.ok ttl : Except String String) = .error m) ∨
      (∃ m, (Except.ok cmt : Except String (Option String)) = .error m) ∨ e ≤ s) := by
    rintro (⟨m, hm⟩ | ⟨m, hm⟩ | hle)
    · exact Except.noConfusion hm
    · exact Except.noConfusion hm
    · exact hse hle
  rcases hF : db.rooms.find? (fun r => r.id == roomId) with _ | room
  · have hr : createBooking db req = (db, .roomNotFound) := by
      unfold createBooking
      rw [hT, hC, hsel, hroom]
      dsimp only
      rw [if_neg h0, if_neg hd, hF]
    refine ⟨iff_of_false ?_ hrhs, ?_⟩
    · rintro ⟨m, hm⟩
      rw [hr] at hm
      exact CreateResp.noConfusion hm
    · intro m' hm'
      rw [hr] at hm'
      exact absurd hm' (by simp)
  by_cases hg : (!roomGatePasses room.status) = true
  · have hr : createBooking db req = (db, .roomUnavailable) := by
      unfold createBooking
      rw [hT, hC, hsel, hroom]
      dsimp only
      rw [if_neg h0, if_neg hd, hF]
      dsimp only
      rw [if_pos hg]
    refine ⟨iff_of_false ?_ hrhs, ?_⟩
    · rintro ⟨m, hm⟩
      rw [hr] at hm
      exact CreateResp.noConfusion hm
    · intro m' hm'
      rw [hr] at hm'
      exact absurd hm' (by simp)
  rcases hq : conflictQuery db.bookings roomId s e none with _ | ⟨c0, rest⟩
  · have hr : (createBooking db req).2 = .created db.nextBookingId := by
      unfold createBooking
      rw [hT, hC, hsel, hroom]
      dsimp only
      rw [if_neg h0, if_neg hd, hF]
      dsimp only
      rw [if_neg hg, hq]
    refine ⟨iff_of_false ?_ hrhs, ?_⟩
    · rintro ⟨m, hm⟩
      rw [hr] at hm
      exact CreateResp.noConfusion hm
    · intro m' hm'
      rw [hr] at hm'
      exact absurd hm' (by simp)
  · have hr : (createBooking db req).2 = .conflict c0 := by
      unfold createBooking
      rw [hT, hC, hsel, hroom]
      dsimp only
      rw [if_neg h0, if_neg hd, hF]
      dsimp only
      rw [if_neg hg, hq]
    refine ⟨iff_of_false ?_ hrhs, ?_⟩
    · rintro ⟨m, hm⟩
      rw [hr] at hm
      exact CreateResp.noConfusion hm
    · intro m' hm'
      rw [hr] at hm'
      exact absurd hm' (by simp)

/-- Witness for the amended C5: a 7-character title passes the title check. -/
theorem create_validation_exact_witness :
    validateAndSanitizeTitle (some "Planung") = .ok "Planung" :=
  ((create_validation_exact emptyDb validCreateReq 10 20 1 rfl rfl
      (by decide)).2.2 (some "Planung") "Planung").mpr
    ⟨by decide, by decide, by decide⟩

/-- Claim C6, amended: a reschedule request without a complete time pair (in either format) is not rejected outright; the supplied time or room fields are ignored, only title and comment are updated, and the stored room, times and status of every booking are unchanged — a partial time change is never applied, and no reschedule or conflict response occurs. -/
theorem incomplete_time_fields_metadata_only (db : DB) (uid : Nat) (adm : Bool)
    (bid : Nat) (req : UpdateReq)
    (hsel : selectTimes req.date req.startTime req.endTime req.start_time req.end_time
      = none) :
    (updateBooking db uid adm bid req).1.bookings.map Booking.room_id
        = db.bookings.map Booking.room_id ∧
    (updateBooking db uid adm bid req).1.bookings.map Booking.start_time
        = db.bookings.map Booking.start_time ∧
    (updateBooking db uid adm bid req).1.bookings.map Booking.end_time
        = db.bookings.map Booking.end_time ∧
    (updateBooking db uid adm bid req).1.bookings.map Booking.status
        = db.bookings.map Booking.status ∧
    (updateBooking db uid adm bid req).2 ≠ .rescheduled ∧
    (∀ c, (updateBooking db uid adm bid req).2 ≠ .conflict c) := by
  unfold updateBooking
  rcases hT : validateAndSanitizeTitle req.title with m | ttl <;> dsimp only
  · exact ⟨rfl, rfl, rfl, rfl, by simp, fun c => by simp⟩
  rcases hC : validateAndSanitizeComment req.comment with m | cmt <;> dsimp only
  · exact ⟨rfl, rfl, rfl, rfl, by simp, fun c => by simp⟩
  rcases hF : db.bookings.find? (fun b => b.id == bid) with _ | booking <;>
      rw [hF] <;> dsimp only
  · exact ⟨rfl, rfl, rfl, rfl, by simp, fun c => by simp⟩
  by_cases hown : (!adm && !(booking.created_by == some uid)) = true
  · rw [if_pos hown]
    exact ⟨rfl, rfl, rfl, rfl, by simp, fun c => by simp⟩
  rw [if_neg hown, hsel]
  dsimp only
  have h1 : (Booking.room_id ∘ applyMetadataUpdate bid ttl cmt) = Booking.room_id :=
    funext fun b => (applyMetadataUpdate_fields bid ttl cmt b).2.1
  have h2 : (Booking.start_time ∘ applyMetadataUpdate bid ttl cmt) = Booking.start_time :=
    funext fun b => (applyMetadataUpdate_fields bid ttl cmt b).2.2.1
  have h3 : (Booking.end_time ∘ applyMetadataUpdate bid ttl cmt) = Booking.end_time :=
    funext fun b => (applyMetadataUpdate_fields bid ttl cmt b).2.2.2.1
  have h4 : (Booking.status ∘ applyMetadataUpdate bid ttl cmt) = Booking.status :=
    funext fun b => (applyMetadataUpdate_fields bid ttl cmt b).2.2.2.2
  refine ⟨?_, ?_, ?_, ?_, by simp, fun c => by simp⟩
  · rw [List.map_map, h1]
  · rw [List.map_map, h2]
  · rw [List.map_map, h3]
  · rw [List.map_map, h4]

/-- Witness for the amended C6 on the concrete partial request: start times survive and the response is not a reschedule. -/
theorem incomplete_time_fields_metadata_only_witness :
    (updateBooking ownedDb 7 false 1 onlyStartUpdateReq).1.bookings.map
        Booking.start_time = ownedDb.bookings.map Booking.start_time ∧
    (updateBooking ownedDb 7 false 1 onlyStartUpdateReq).2 ≠ .rescheduled := by
  have h := incomplete_time_fields_metadata_only ownedDb 7 false 1
    onlyStartUpdateReq rfl
  exact ⟨h.2.1, h.2.2.2.2.1⟩

/-- Claim C7, amended: any conflict reported by a reschedule names a confirmed booking of the target room (the supplied room id, or the booking's current room) other than the booking being rescheduled; and rescheduling a confirmed booking to exactly its own interval in its own room never reports a conflict, provided stored intervals are nonempty and the no-double-booking invariant holds — for a canceled booking the guarantee fails, see the counterexample. -/
theorem reschedule_excludes_self_and_targets_room (db : DB) (uid : Nat)
    (adm : Bool) (bid : Nat) (req : UpdateReq) (b : Booking)
    (hfind : db.bookings.find? (fun x => x.id == bid) = some b) :
    (∀ c, (updateBooking db uid adm bid req).2 = .conflict c →
       c ∈ db.bookings ∧ c.id ≠ bid ∧ c.status = .confirmed ∧
       c.room_id = req.room_id.getD b.room_id) ∧
    ((∀ x ∈ db.bookings, x.start_time < x.end_time) →
     NoDoubleBooking db.bookings →
     b.status = .confirmed →
     selectTimes req.date req.startTime req.endTime req.start_time req.end_time
       = some (b.start_time, b.end_time) →
     req.room_id.getD b.room_id = b.room_id →
     ∀ c, (updateBooking db uid adm bid req).2 ≠ .conflict c) := by
  constructor
  · intro c h
    obtain ⟨b', s, e, hfind', hsel', hhead⟩ :=
      updateBooking_conflict_head db uid adm bid req c h
    have hb' : b' = b := by
      rw [hfind] at hfind'
      exact (Option.some.inj hfind').symm
    subst hb'
    rcases hqq : conflictQuery db.bookings (req.room_id.getD b'.room_id) s e (some bid)
        with _ | ⟨a, tl⟩ <;> rw [hqq] at hhead
    · simp at hhead
    · rw [List.head?_cons] at hhead
      have hac : a = c := Option.some.inj hhead
      subst hac
      have hmem := hqq ▸ List.mem_cons_self a tl
      obtain ⟨hin, hcond⟩ := List.mem_filter.mp hmem
      obtain ⟨hroom, hne, _, _, hst⟩ :=
        (matchesConflict_some_iff (req.room_id.getD b'.room_id) s e bid a).mp hcond
      exact ⟨hin, hne, hst, hroom⟩
  · intro hwfint hinv hconf hsel hroomeq c h
    obtain ⟨b', s, e, hfind', hsel', hhead⟩ :=
      updateBooking_conflict_head db uid adm bid req c h
    have hb' : b' = b := by
      rw [hfind] at hfind'
      exact (Option.some.inj hfind').symm
    subst hb'
    rw [hsel] at hsel'
    have hpair := Option.some.inj hsel'
    injection hpair with hs1 he1
    subst hs1
    subst he1
    rw [hroomeq] at hhead
    rcases hqq : conflictQuery db.bookings b'.room_id b'.start_time b'.end_time
        (some bid) with _ | ⟨a, tl⟩ <;> rw [hqq] at hhead
    · simp at hhead
    rw [List.head?_cons] at hhead
    have hac : a = c := Option.some.inj hhead
    subst hac
    have hmem := hqq ▸ List.mem_cons_self a tl
    obtain ⟨hcin, hcond⟩ := List.mem_filter.mp hmem
    obtain ⟨hcroom, hcne, hcstart, hcend, hcst⟩ :=
      (matchesConflict_some_iff b'.room_id b'.start_time b'.end_time bid a).mp hcond
    have hbid : b'.id = bid := by
      have := List.find?_some hfind
      simpa using this
    have hbmem : b' ∈ db.bookings := List.mem_of_find?_eq_some hfind
    have hneq : b' ≠ a := by
      intro heq
      exact hcne (by rw [← heq, hbid])
    have hcov1 : coversB b'.room_id (max b'.start_time a.start_time) b' = true :=
      (coversB_eq_true b'.room_id _ b').mpr
        ⟨hconf, rfl, Nat.le_max_left _ _,
         Nat.max_lt.mpr ⟨hwfint b' hbmem, hcstart⟩⟩
    have hcov2 : coversB b'.room_id (max b'.start_time a.start_time) a = true :=
      (coversB_eq_true b'.room_id _ a).mpr
        ⟨hcst, hcroom, Nat.le_max_right _ _,
         Nat.max_lt.mpr ⟨hcend, hwfint a hcin⟩⟩
    have h2 := two_le_countP (coversB b'.room_id (max b'.start_time a.start_time))
      hbmem hcin hneq hcov1 hcov2
    have h1 := hinv b'.room_id (max b'.start_time a.start_time)
    omega

/-- Witness for the amended C7: the lone confirmed booking rescheduled onto itself yields no conflict. -/
theorem reschedule_excludes_self_and_targets_room_witness :
    (updateBooking confirmedSoloDb 7 false 1 selfRescheduleReq).2
      ≠ .conflict occupyingBooking := by
  have h := (reschedule_excludes_self_and_targets_room confirmedSoloDb 7 false 1
      selfRescheduleReq confirmedSolo (by decide)).2
  exact h (by decide)
    (fun room t => le_trans (List.countP_le_length _) (by decide))
    (by decide) (by decide) (by decide) occupyingBooking
